import Mathlib

/-!
Verification of the core of `itsm-tools`: the HTTP request engine with its
retry/backoff/rate-limit state machine (`itsm_tools/atlassian/base.py`,
`AtlassianClient._request` and friends), the credential resolution chain
(`itsm_tools/atlassian/credentials.py`), and the adapter registry
(`itsm_tools/core/registry.py`).

The Python code is shallowly embedded: each HTTP attempt's outcome (a response
with a status code and optional `Retry-After` header, a timeout, or a
connection error) is drawn from an environment `env : Nat → AttemptOutcome`
indexed by attempt number, and `_request` becomes a total function returning
the classified result together with the number of attempts issued and the
list of sleep delays, in order.
-/

set_option autoImplicit false

namespace ItsmTools

/-- Outcome of one HTTP attempt as seen by `_request`: a response carrying a
status code and the optional `Retry-After` header value, or a transport-level
exception (`requests.exceptions.Timeout` / `requests.exceptions.ConnectionError`). -/
inductive AttemptOutcome where
  | resp (status : Nat) (retryAfter : Option String)
  | timeout
  | connError
deriving DecidableEq

/-- The transport exceptions remembered in `last_exception`. -/
inductive TransportExc where
  | timeout
  | connError
deriving DecidableEq

/-- The classified errors `_request` can raise
(`itsm_tools/core/exceptions.py`).  `providerError none` is the final
fallback `ProviderError("Request failed after all retry attempts")`, which
carries no status code; `providerError (some s)` is
`ProviderError(f"Request failed: {s}", status_code=s)`.
`connectionError true` is the "Request timed out after N attempts" form of
the connection error, `connectionError false` the "Connection failed" form. -/
inductive ReqError where
  | authenticationError (status : Nat)
  | notFoundError
  | rateLimitError (retry_after : Int)
  | providerError (status : Option Nat)
  | connectionError (timedOut : Bool)
deriving DecidableEq

/-- Client configuration relevant to the retry loop: `max_retries` and
`backoff_factor` (a Python float, modelled as a rational). -/
structure ClientConfig where
  max_retries : Nat
  backoff_factor : ℚ
deriving DecidableEq

/-- Result of a `_request` call: the classified outcome (success returns the
response, identified by its status code), the number of HTTP attempts issued,
and the list of sleep delays in seconds, in the order they were performed. -/
structure ReqResult where
  result : Except ReqError Nat
  attempts : Nat
  sleeps : List ℚ

/-- `DEFAULT_RETRY_STATUSES = (429, 500, 502, 503, 504)` from `base.py`. -/
def DEFAULT_RETRY_STATUSES : List Nat := [429, 500, 502, 503, 504]

/-- `AtlassianClient._calculate_backoff`: `self.backoff_factor ** attempt`. -/
def calculate_backoff (cfg : ClientConfig) (attempt : Nat) : ℚ :=
  cfg.backoff_factor ^ attempt

/-- Python `int()` applied to a number: truncation toward zero. -/
def pyIntTrunc (q : ℚ) : Int := q.num.tdiv q.den

/-- Accumulate decimal digits; any non-digit character fails the parse
(Python `int(str)` raises `ValueError`). -/
def parseDigitsAux : List Char → Nat → Option Nat
  | [], acc => some acc
  | c :: cs, acc => if c.isDigit then parseDigitsAux cs (acc * 10 + (c.toNat - 48)) else none

/-- Parse a non-empty run of decimal digits. -/
def parseDigits : List Char → Option Nat
  | [] => none
  | c :: cs => if c.isDigit then parseDigitsAux cs (c.toNat - 48) else none

/-- Python `int(str)` as used on the `Retry-After` header value: an optional
sign followed by decimal digits yields the integer, anything else is a
`ValueError` (modelled as `none`).  Pythonic whitespace stripping and digit
underscores are not modelled; no claim depends on them. -/
def pyStrToInt? (s : String) : Option Int :=
  match s.data with
  | '-' :: rest => (parseDigits rest).map (fun n => -(n : Int))
  | '+' :: rest => (parseDigits rest).map (fun n => (n : Int))
  | cs => (parseDigits cs).map (fun n => (n : Int))

/-- `AtlassianClient._get_retry_after`: use the `Retry-After` header when it
is present, truthy (non-empty) and parses as an integer, otherwise fall back
to `int(self._calculate_backoff(attempt))`. -/
def get_retry_after (cfg : ClientConfig) (retryAfter : Option String) (attempt : Nat) : Int :=
  match retryAfter with
  | some s =>
      if s = "" then pyIntTrunc (calculate_backoff cfg attempt)
      else
        match pyStrToInt? s with
        | some n => n
        | none => pyIntTrunc (calculate_backoff cfg attempt)
  | none => pyIntTrunc (calculate_backoff cfg attempt)

/-- The attempt loop of `AtlassianClient._request`, by recursion on the number
of remaining loop iterations `r` (the call site uses `r = max_retries + 1`
and attempt index `a = 0`; each iteration handles attempt `a` and recurses
with `a + 1`).  The `r = 0` case is the code after the loop: raise a
connection error describing `last_exception` when one was recorded, else the
fallback `ProviderError`.  In the loop body the status checks appear in the
source's order: 401, 403, 404, 429, retryable-with-budget, any other >= 400,
success.  A transport exception records `last_exception`; with budget
remaining it sleeps the backoff and retries, otherwise the handler falls
through and the loop exits. -/
def requestAux (cfg : ClientConfig) (rs : List Nat) (env : Nat → AttemptOutcome) :
    Nat → Nat → Option TransportExc → ReqResult
  | _, 0, lastExc =>
      match lastExc with
      | some .timeout => ⟨.error (.connectionError true), 0, []⟩
      | some .connError => ⟨.error (.connectionError false), 0, []⟩
      | none => ⟨.error (.providerError none), 0, []⟩
  | a, r + 1, lastExc =>
      match env a with
      | .resp status hdr =>
          if status = 401 then ⟨.error (.authenticationError 401), 1, []⟩
          else if status = 403 then ⟨.error (.authenticationError 403), 1, []⟩
          else if status = 404 then ⟨.error .notFoundError, 1, []⟩
          else if status = 429 then
            let retry_after := get_retry_after cfg hdr a
            if a < cfg.max_retries then
              let rest := requestAux cfg rs env (a + 1) r lastExc
              ⟨rest.result, rest.attempts + 1, (retry_after : ℚ) :: rest.sleeps⟩
            else ⟨.error (.rateLimitError retry_after), 1, []⟩
          else if status ∈ rs ∧ a < cfg.max_retries then
            let rest := requestAux cfg rs env (a + 1) r lastExc
            ⟨rest.result, rest.attempts + 1, calculate_backoff cfg a :: rest.sleeps⟩
          else if 400 ≤ status then ⟨.error (.providerError (some status)), 1, []⟩
          else ⟨.ok status, 1, []⟩
      | .timeout =>
          if a < cfg.max_retries then
            let rest := requestAux cfg rs env (a + 1) r (some .timeout)
            ⟨rest.result, rest.attempts + 1, calculate_backoff cfg a :: rest.sleeps⟩
          else
            let rest := requestAux cfg rs env (a + 1) r (some .timeout)
            ⟨rest.result, rest.attempts + 1, rest.sleeps⟩
      | .connError =>
          if a < cfg.max_retries then
            let rest := requestAux cfg rs env (a + 1) r (some .connError)
            ⟨rest.result, rest.attempts + 1, calculate_backoff cfg a :: rest.sleeps⟩
          else
            let rest := requestAux cfg rs env (a + 1) r (some .connError)
            ⟨rest.result, rest.attempts + 1, rest.sleeps⟩

/-- `AtlassianClient._request`: run the attempt loop for
`range(max_retries + 1)` starting at attempt 0 with no recorded exception. -/
def request (cfg : ClientConfig) (rs : List Nat) (env : Nat → AttemptOutcome) : ReqResult :=
  requestAux cfg rs env 0 (cfg.max_retries + 1) none

/-- The decision the loop body takes for one attempt, following the spec's
design note: a tagged result computed uniformly from the response or the
caught exception. `success`/`raise` end the call on this attempt;
`sleepRetry` sleeps the given delay and moves to the next attempt;
`fallThrough` is a transport exception on the final attempt, whose handler
ends without `continue`, letting the loop exit. -/
inductive StepDecision where
  | success (status : Nat)
  | raise (e : ReqError)
  | sleepRetry (delay : ℚ)
  | fallThrough (exc : TransportExc)
deriving DecidableEq

/-- The classification order of the loop body of `_request`, read off the
source: 401, 403, 404, 429 (with budget check), retryable-status-with-budget,
any other status >= 400, success; transport exceptions retry with backoff
while budget remains. -/
def stepDecision (cfg : ClientConfig) (rs : List Nat) (a : Nat) : AttemptOutcome → StepDecision
  | .resp status hdr =>
      if status = 401 then .raise (.authenticationError 401)
      else if status = 403 then .raise (.authenticationError 403)
      else if status = 404 then .raise .notFoundError
      else if status = 429 then
        if a < cfg.max_retries then .sleepRetry ((get_retry_after cfg hdr a : ℚ))
        else .raise (.rateLimitError (get_retry_after cfg hdr a))
      else if status ∈ rs ∧ a < cfg.max_retries then .sleepRetry (calculate_backoff cfg a)
      else if 400 ≤ status then .raise (.providerError (some status))
      else .success status
  | .timeout =>
      if a < cfg.max_retries then .sleepRetry (calculate_backoff cfg a)
      else .fallThrough .timeout
  | .connError =>
      if a < cfg.max_retries then .sleepRetry (calculate_backoff cfg a)
      else .fallThrough .connError

/-- `last_exception` after an attempt: transport exceptions record
themselves, responses leave it unchanged. -/
def recordedExc (o : AttemptOutcome) (old : Option TransportExc) : Option TransportExc :=
  match o with
  | .resp _ _ => old
  | .timeout => some .timeout
  | .connError => some .connError

/-- Outcomes after which the loop can issue a further attempt: transport
exceptions, 429, and retryable statuses not shadowed by the 401/403/404
checks. -/
def retryLeading (rs : List Nat) : AttemptOutcome → Prop
  | .resp s _ => s ≠ 401 ∧ s ≠ 403 ∧ s ≠ 404 ∧ (s = 429 ∨ s ∈ rs)
  | .timeout => True
  | .connError => True

instance (rs : List Nat) : DecidablePred (retryLeading rs) := fun o => by
  cases o <;> dsimp [retryLeading] <;> infer_instance

/-- Outcomes classified as non-retryable errors: 401, 403, 404, or any other
status >= 400 outside the retryable set (and not 429). -/
def nonRetryableError (rs : List Nat) : AttemptOutcome → Prop
  | .resp s _ => s = 401 ∨ s = 403 ∨ s = 404 ∨ (400 ≤ s ∧ s ≠ 429 ∧ s ∉ rs)
  | .timeout => False
  | .connError => False

instance (rs : List Nat) : DecidablePred (nonRetryableError rs) := fun o => by
  cases o <;> dsimp [nonRetryableError] <;> infer_instance

/-- Primary probe path of `AtlassianClient.test_connection`. -/
def SERVER_INFO_PATH : String := "/rest/api/3/serverInfo"

/-- Secondary probe path of `AtlassianClient.test_connection`. -/
def MYSELF_PATH : String := "/rest/api/3/myself"

/-- `AtlassianClient._get` as seen by `test_connection`: the classified
outcome of `_request` for a path, over a per-path attempt environment (the
parsed JSON body is irrelevant to the claims). -/
def http_get (cfg : ClientConfig) (rs : List Nat) (penv : String → Nat → AttemptOutcome)
    (path : String) : Except ReqError Nat :=
  (request cfg rs (penv path)).result

/-- `AtlassianClient.test_connection`: probe the server-info endpoint; on
`NotFoundError` fall back to the "myself" endpoint; a second `NotFoundError`
still counts as success; every other error propagates unchanged (only
`NotFoundError` is caught by the two `except` clauses). -/
def test_connection (cfg : ClientConfig) (rs : List Nat)
    (penv : String → Nat → AttemptOutcome) : Except ReqError Bool :=
  match http_get cfg rs penv SERVER_INFO_PATH with
  | .ok _ => .ok true
  | .error .notFoundError =>
      match http_get cfg rs penv MYSELF_PATH with
      | .ok _ => .ok true
      | .error .notFoundError => .ok true
      | .error e => .error e
  | .error e => .error e

/-- Environment variable names from `credentials.py`. -/
def ENV_BASE_URL : String := "JIRA_BASE_URL"

def ENV_USER_EMAIL : String := "JIRA_USER_EMAIL"

def ENV_API_TOKEN : String := "JIRA_API_TOKEN"

/-- Keyring account names from `credentials.py`. -/
def KEYRING_BASE_URL : String := "base_url"

def KEYRING_EMAIL : String := "user_email"

def KEYRING_TOKEN : String := "api_token"

/-- `AtlassianCredentials` named tuple. -/
structure AtlassianCredentials where
  base_url : String
  email : String
  api_token : String
deriving DecidableEq

/-- Result of `keyring.get_password`: a stored value, no entry (`None`), or
a raised `KeyringError`. -/
inductive KeyringResult where
  | found (value : String)
  | notFound
  | err
deriving DecidableEq

/-- The ambient state `get_credentials` reads: `os.environ`, the keyring
(service → account → result), and the line content of the first `.env` file
found by the upward directory walk (`none` when no file is found). -/
structure ResolveEnv where
  osEnv : String → Option String
  keyring : String → String → KeyringResult
  dotenvFile : Option (List String)

/-- Python truthiness of an optional string: `None` and `""` are falsy. -/
def isTruthy : Option String → Bool
  | none => false
  | some s => s != ""

/-- `_get_from_keyring`: `keyring.get_password` with `KeyringError`
swallowed (logged at debug level) and treated as "not found". -/
def get_from_keyring (E : ResolveEnv) (service account : String) : Option String :=
  match E.keyring service account with
  | .found v => some v
  | .notFound => none
  | .err => none

/-- Python `str.strip()`: drop whitespace from both ends. -/
def pyStrip (s : String) : String :=
  String.mk (((s.data.dropWhile Char.isWhitespace).reverse.dropWhile Char.isWhitespace).reverse)

/-- Split a line at its first equals sign, as `line.partition("=")` does;
`none` when the line has no equals sign. -/
def splitAtEq : List Char → Option (List Char × List Char)
  | [] => none
  | c :: cs =>
      if c = '=' then some ([], cs)
      else (splitAtEq cs).map (fun p => (c :: p.1, p.2))

/-- The quote characters stripped by `_load_dotenv`. -/
def doubleQuoteChar : Char := Char.ofNat 34

def singleQuoteChar : Char := Char.ofNat 39

/-- Strip one pair of matching surrounding quote characters from a value
(`value[0] in quotes and value[-1] == value[0]` then `value[1:-1]`), as
`_load_dotenv` does. -/
def stripQuotes (v : String) : String :=
  match v.data with
  | [] => v
  | c :: cs =>
      if (c = doubleQuoteChar ∨ c = singleQuoteChar) ∧ (c :: cs).getLast? = some c then
        String.mk cs.dropLast
      else v

/-- One line of `_load_dotenv`: skip blank and comment lines, parse
`KEY=value` at the first equals sign, strip whitespace and quotes, and
overwrite the accumulated mapping. -/
def dotenvLine (vars : String → Option String) (rawLine : String) : String → Option String :=
  let line := pyStrip rawLine
  if line = "" then vars
  else if line.data.head? = some '#' then vars
  else
    match splitAtEq line.data with
    | none => vars
    | some kv =>
        let key := pyStrip (String.mk kv.1)
        let value := stripQuotes (pyStrip (String.mk kv.2))
        fun q => if q = key then some value else vars q

/-- `_load_dotenv`: fold the found file's lines into a mapping; when no
`.env` file exists the mapping is empty. -/
def load_dotenv (file : Option (List String)) : String → Option String :=
  match file with
  | none => fun _ => none
  | some lines => lines.foldl dotenvLine (fun _ => none)

/-- Python `str.rstrip("/")`: drop every trailing slash. -/
def pyRstripSlashes (s : String) : String :=
  String.mk ((s.data.reverse.dropWhile (fun c => c = '/')).reverse)

/-- One `if not resolved: resolved = <next source>` statement of
`get_credentials`: keep a truthy value, else fall back. -/
def fallback (x next : Option String) : Option String :=
  if isTruthy x then x else next

/-- `get_credentials`: resolve each of the three fields through explicit
argument, environment variable, keyring, and (when some field is still
falsy) the `.env` file, then validate; the error payload is the `missing`
list whose comma-join forms the `ValueError` message, and on success the
returned `base_url` has trailing slashes stripped. -/
def get_credentials (E : ResolveEnv) (base_url email api_token : Option String)
    (service : String) : Except (List String) AtlassianCredentials :=
  let url1 := fallback base_url (E.osEnv ENV_BASE_URL)
  let email1 := fallback email (E.osEnv ENV_USER_EMAIL)
  let token1 := fallback api_token (E.osEnv ENV_API_TOKEN)
  let url2 := fallback url1 (get_from_keyring E service KEYRING_BASE_URL)
  let email2 := fallback email1 (get_from_keyring E service KEYRING_EMAIL)
  let token2 := fallback token1 (get_from_keyring E service KEYRING_TOKEN)
  let step4 :=
    if isTruthy url2 && isTruthy email2 && isTruthy token2 then (url2, email2, token2)
    else
      let env_vars := load_dotenv E.dotenvFile
      (fallback url2 (env_vars ENV_BASE_URL),
       fallback email2 (env_vars ENV_USER_EMAIL),
       fallback token2 (env_vars ENV_API_TOKEN))
  let missing :=
    (if isTruthy step4.1 then [] else ["base_url"]) ++
    (if isTruthy step4.2.1 then [] else ["email"]) ++
    (if isTruthy step4.2.2 then [] else ["api_token"])
  if missing.isEmpty then
    .ok ⟨pyRstripSlashes (step4.1.getD ""), step4.2.1.getD "", step4.2.2.getD ""⟩
  else .error missing

/-- `keyring.set_password`: point update of the keyring state. -/
def keyring_set (st : String → String → KeyringResult) (service account value : String) :
    String → String → KeyringResult :=
  fun s a => if s = service ∧ a = account then .found value else st s a

/-- `save_credentials`: three independent `set_password` writes. -/
def save_credentials (st : String → String → KeyringResult)
    (base_url email api_token service : String) : String → String → KeyringResult :=
  keyring_set
    (keyring_set (keyring_set st service KEYRING_BASE_URL base_url) service KEYRING_EMAIL email)
    service KEYRING_TOKEN api_token

/-- Spec-side description of per-field resolution: the highest-precedence
source with a truthy (non-empty) value wins, each field independently. -/
def resolveField (explicit envV keyV dotV : Option String) : Option String :=
  if isTruthy explicit then explicit
  else if isTruthy envV then envV
  else if isTruthy keyV then keyV
  else dotV

/-- The three capability interfaces of `core/interfaces.py`. -/
inductive Interface where
  | issueTracker
  | wikiProvider
  | incidentManager
deriving DecidableEq

/-- An adapter instance: the registered class (identified abstractly by a
number) applied to a configuration mapping (`adapter_class(config or {})`). -/
structure Adapter where
  cls : Nat
  config : List (String × String)
deriving DecidableEq

/-- The three module-level registries (`_issue_tracker_registry`,
`_wiki_provider_registry`, `_incident_manager_registry`), each a Python
dict from provider name to adapter class, kept in insertion order. -/
structure Registries where
  issue_tracker : List (String × Nat)
  wiki : List (String × Nat)
  incidents : List (String × Nat)
deriving DecidableEq

/-- Python dict lookup. -/
def dictGet? : List (String × Nat) → String → Option Nat
  | [], _ => none
  | p :: ps, k => if p.1 = k then some p.2 else dictGet? ps k

/-- Python dict keys, in insertion order. -/
def dictKeys (d : List (String × Nat)) : List String := d.map Prod.fst

/-- Python dict assignment `d[k] = v`: overwrite in place when the key is
present, else append. -/
def dictInsert (d : List (String × Nat)) (k : String) (v : Nat) : List (String × Nat) :=
  if k ∈ dictKeys d then d.map (fun p => if p.1 = k then (k, v) else p)
  else d ++ [(k, v)]

/-- The registry dict belonging to an interface. -/
def registryOf (r : Registries) : Interface → List (String × Nat)
  | .issueTracker => r.issue_tracker
  | .wikiProvider => r.wiki
  | .incidentManager => r.incidents

/-- `register_adapter(name, interface)` applied to a class: store the class
under the name in the interface's registry. -/
def register_adapter (r : Registries) (name : String) (i : Interface) (cls : Nat) : Registries :=
  match i with
  | .issueTracker => { r with issue_tracker := dictInsert r.issue_tracker name cls }
  | .wikiProvider => { r with wiki := dictInsert r.wiki name cls }
  | .incidentManager => { r with incidents := dictInsert r.incidents name cls }

/-- The shared body of `get_issue_tracker` / `get_wiki_provider` /
`get_incident_manager` once a provider name is fixed: an unknown name
raises `ITSMError` whose message lists the currently registered names
(modelled as the error payload), a known name instantiates the registered
class with `config or {}`. -/
def get_adapter (r : Registries) (i : Interface) (provider : String)
    (config : Option (List (String × String))) : Except (String × List String) Adapter :=
  match dictGet? (registryOf r i) provider with
  | none => .error (provider, dictKeys (registryOf r i))
  | some cls => .ok ⟨cls, config.getD []⟩

/-- One unrolling of the attempt loop, expressed through `stepDecision`. -/
theorem requestAux_succ (cfg : ClientConfig) (rs : List Nat) (env : Nat → AttemptOutcome)
    (a r : Nat) (exc : Option TransportExc) :
    requestAux cfg rs env a (r + 1) exc =
      match stepDecision cfg rs a (env a) with
      | .success s => ⟨.ok s, 1, []⟩
      | .raise e => ⟨.error e, 1, []⟩
      | .sleepRetry d =>
          let rest := requestAux cfg rs env (a + 1) r (recordedExc (env a) exc)
          ⟨rest.result, rest.attempts + 1, d :: rest.sleeps⟩
      | .fallThrough e =>
          let rest := requestAux cfg rs env (a + 1) r (some e)
          ⟨rest.result, rest.attempts + 1, rest.sleeps⟩ := by
  cases h : env a <;> simp only [requestAux, stepDecision, recordedExc, h] <;> split_ifs <;> rfl

/-- The post-loop code: the loop exhausted with zero remaining iterations. -/
theorem requestAux_zero (cfg : ClientConfig) (rs : List Nat) (env : Nat → AttemptOutcome)
    (a : Nat) (exc : Option TransportExc) :
    (requestAux cfg rs env a 0 exc).attempts = 0 ∧
    (requestAux cfg rs env a 0 exc).sleeps = [] := by
  cases exc with
  | none => simp [requestAux]
  | some e => cases e <;> simp [requestAux]

/-- At most `r` attempts are issued when `r` loop iterations remain. -/
theorem requestAux_attempts_le (cfg : ClientConfig) (rs : List Nat) (env : Nat → AttemptOutcome) :
    ∀ r a exc, (requestAux cfg rs env a r exc).attempts ≤ r := by
  intro r
  induction r with
  | zero => intro a exc; exact Nat.le_of_eq (requestAux_zero cfg rs env a exc).1
  | succ r ih =>
    intro a exc
    rw [requestAux_succ]
    cases stepDecision cfg rs a (env a) with
    | success s => exact Nat.succ_le_succ (Nat.zero_le r)
    | raise e => exact Nat.succ_le_succ (Nat.zero_le r)
    | sleepRetry d => exact Nat.succ_le_succ (ih _ _)
    | fallThrough e => exact Nat.succ_le_succ (ih _ _)

/-- At least one attempt is issued when the loop runs at all. -/
theorem requestAux_attempts_pos (cfg : ClientConfig) (rs : List Nat) (env : Nat → AttemptOutcome)
    (r a : Nat) (exc : Option TransportExc) :
    1 ≤ (requestAux cfg rs env a (r + 1) exc).attempts := by
  rw [requestAux_succ]
  cases stepDecision cfg rs a (env a) <;> exact Nat.succ_le_succ (Nat.zero_le _)

/-- A step that sleeps and retries can only come from a retry-leading
outcome. -/
theorem stepDecision_sleepRetry_retryLeading (cfg : ClientConfig) (rs : List Nat) (a : Nat)
    (o : AttemptOutcome) (d : ℚ) (h : stepDecision cfg rs a o = .sleepRetry d) :
    retryLeading rs o := by
  cases o with
  | resp s hdr =>
    dsimp only [stepDecision] at h
    split_ifs at h <;> simp_all [retryLeading]
  | timeout => trivial
  | connError => trivial

/-- A non-retryable error outcome always makes the loop body raise. -/
theorem nonRetryable_stepDecision (cfg : ClientConfig) (rs : List Nat) (a : Nat)
    (o : AttemptOutcome) (h : nonRetryableError rs o) :
    ∃ e, stepDecision cfg rs a o = .raise e := by
  cases o with
  | resp s hdr =>
    simp only [nonRetryableError] at h
    dsimp only [stepDecision]
    by_cases h1 : s = 401
    · exact ⟨.authenticationError 401, by simp [h1]⟩
    by_cases h2 : s = 403
    · exact ⟨.authenticationError 403, by simp [h1, h2]⟩
    by_cases h3 : s = 404
    · exact ⟨.notFoundError, by simp [h1, h2, h3]⟩
    rcases h with rfl | rfl | rfl | ⟨h4, h5, h6⟩
    · exact absurd rfl h1
    · exact absurd rfl h2
    · exact absurd rfl h3
    · exact ⟨.providerError (some s), by simp [h1, h2, h3, h4, h5, h6]⟩
  | timeout => simp [nonRetryableError] at h
  | connError => simp [nonRetryableError] at h

/-- A transport exception falls through only on the final attempt. -/
theorem stepDecision_fallThrough_le (cfg : ClientConfig) (rs : List Nat) (a : Nat)
    (o : AttemptOutcome) (e : TransportExc) (h : stepDecision cfg rs a o = .fallThrough e) :
    cfg.max_retries ≤ a := by
  cases o with
  | resp s hdr => dsimp only [stepDecision] at h; split_ifs at h <;> simp_all
  | timeout =>
    dsimp only [stepDecision] at h
    split_ifs at h with h1
    omega
  | connError =>
    dsimp only [stepDecision] at h
    split_ifs at h with h1
    omega

/-- A step that sleeps and retries only happens with budget remaining. -/
theorem stepDecision_sleepRetry_lt (cfg : ClientConfig) (rs : List Nat) (a : Nat)
    (o : AttemptOutcome) (d : ℚ) (h : stepDecision cfg rs a o = .sleepRetry d) :
    a < cfg.max_retries := by
  cases o <;> dsimp only [stepDecision] at h <;> split_ifs at h <;> simp_all

/-- The loop body never raises the final-fallback `ProviderError` (the one
with no status code): every raised `ProviderError` carries its status. -/
theorem stepDecision_raise_ne_fallback (cfg : ClientConfig) (rs : List Nat) (a : Nat)
    (o : AttemptOutcome) (e : ReqError) (h : stepDecision cfg rs a o = .raise e) :
    e ≠ .providerError none := by
  cases o <;> dsimp only [stepDecision] at h <;> split_ifs at h <;>
    injection h with h <;> subst h <;> simp

/-- Every non-final attempt's outcome is retry-leading (given the call-site
relation between the attempt index and the remaining iteration count). -/
theorem requestAux_retryLeading (cfg : ClientConfig) (rs : List Nat) (env : Nat → AttemptOutcome) :
    ∀ r a exc, a + r = cfg.max_retries + 1 →
      ∀ j, j + 1 < (requestAux cfg rs env a r exc).attempts → retryLeading rs (env (a + j)) := by
  intro r
  induction r with
  | zero =>
    intro a exc _ j hj
    rw [(requestAux_zero cfg rs env a exc).1] at hj
    omega
  | succ r ih =>
    intro a exc hinv j hj
    rw [requestAux_succ] at hj
    cases hd : stepDecision cfg rs a (env a) with
    | success s => rw [hd] at hj; dsimp only at hj; omega
    | raise e => rw [hd] at hj; dsimp only at hj; omega
    | sleepRetry d =>
      rw [hd] at hj; dsimp only at hj
      cases j with
      | zero =>
        simpa using stepDecision_sleepRetry_retryLeading cfg rs a (env a) d hd
      | succ j =>
        have hae : a + (j + 1) = (a + 1) + j := by omega
        rw [hae]
        exact ih (a + 1) (recordedExc (env a) exc) (by omega) j (by omega)
    | fallThrough e =>
      rw [hd] at hj; dsimp only at hj
      have hmax := stepDecision_fallThrough_le cfg rs a (env a) e hd
      have hr : r = 0 := by omega
      subst hr
      rw [(requestAux_zero cfg rs env (a + 1) (some e)).1] at hj
      omega

/-- Once a non-retryable error outcome is reached at a reached attempt, the
call ends on that very attempt and raises. -/
theorem requestAux_nonRetryable (cfg : ClientConfig) (rs : List Nat) (env : Nat → AttemptOutcome) :
    ∀ r a exc j, j < (requestAux cfg rs env a r exc).attempts →
      nonRetryableError rs (env (a + j)) →
      (requestAux cfg rs env a r exc).attempts = j + 1 ∧
      ∃ e, (requestAux cfg rs env a r exc).result = .error e := by
  intro r
  induction r with
  | zero =>
    intro a exc j hj _
    rw [(requestAux_zero cfg rs env a exc).1] at hj
    omega
  | succ r ih =>
    intro a exc j hj hnr
    rw [requestAux_succ] at hj ⊢
    cases hd : stepDecision cfg rs a (env a) with
    | success s =>
      rw [hd] at hj; dsimp only at hj
      have hj0 : j = 0 := by omega
      subst hj0
      rcases nonRetryable_stepDecision cfg rs a (env a) (by simpa using hnr) with ⟨e, he⟩
      rw [hd] at he
      simp at he
    | raise e =>
      rw [hd] at hj; dsimp only at hj ⊢
      have hj0 : j = 0 := by omega
      subst hj0
      exact ⟨rfl, e, rfl⟩
    | sleepRetry d =>
      rw [hd] at hj; dsimp only at hj ⊢
      cases j with
      | zero =>
        rcases nonRetryable_stepDecision cfg rs a (env a) (by simpa using hnr) with ⟨e, he⟩
        rw [hd] at he
        simp at he
      | succ j =>
        have hae : a + (j + 1) = (a + 1) + j := by omega
        rw [hae] at hnr
        rcases ih (a + 1) (recordedExc (env a) exc) j (by omega) hnr with ⟨h1, e, h2⟩
        exact ⟨by omega, e, h2⟩
    | fallThrough e =>
      rw [hd] at hj; dsimp only at hj ⊢
      cases j with
      | zero =>
        rcases nonRetryable_stepDecision cfg rs a (env a) (by simpa using hnr) with ⟨e', he⟩
        rw [hd] at he
        simp at he
      | succ j =>
        have hae : a + (j + 1) = (a + 1) + j := by omega
        rw [hae] at hnr
        rcases ih (a + 1) (some e) j (by omega) hnr with ⟨h1, e', h2⟩
        exact ⟨by omega, e', h2⟩

/-- C1: `_request` with `max_retries = N` issues at most `N + 1` HTTP
attempts; at a reached attempt whose outcome is a non-retryable
classification (401, 403, 404, or any other status >= 400 outside the
retryable set) the call raises immediately on that attempt; and every
attempt that is followed by a further attempt had one of the retryable
outcomes (429, a configured retryable status, a timeout, or a connection
error). -/
theorem c1_attempt_budget_and_terminal_raise (cfg : ClientConfig) (rs : List Nat)
    (env : Nat → AttemptOutcome) :
    (request cfg rs env).attempts ≤ cfg.max_retries + 1 ∧
    (∀ a, a < (request cfg rs env).attempts → nonRetryableError rs (env a) →
      (request cfg rs env).attempts = a + 1 ∧
      ∃ e, (request cfg rs env).result = .error e) ∧
    (∀ a, a + 1 < (request cfg rs env).attempts → retryLeading rs (env a)) := by
  refine ⟨requestAux_attempts_le cfg rs env _ 0 none, ?_, ?_⟩
  · intro a ha hnr
    exact requestAux_nonRetryable cfg rs env (cfg.max_retries + 1) 0 none a ha
      (by simpa using hnr)
  · intro a ha
    simpa using requestAux_retryLeading cfg rs env (cfg.max_retries + 1) 0 none (by omega) a ha

/-- Witness for C1: one retryable 500 followed by a non-retryable 400 under
`max_retries = 1`. -/
theorem c1_attempt_budget_and_terminal_raise_witness :
    (request ⟨1, 2⟩ DEFAULT_RETRY_STATUSES
        (fun n => if n = 0 then .resp 500 none else .resp 400 none)).attempts ≤ 1 + 1 ∧
    ((request ⟨1, 2⟩ DEFAULT_RETRY_STATUSES
        (fun n => if n = 0 then .resp 500 none else .resp 400 none)).attempts = 1 + 1 ∧
      ∃ e, (request ⟨1, 2⟩ DEFAULT_RETRY_STATUSES
        (fun n => if n = 0 then .resp 500 none else .resp 400 none)).result = .error e) := by
  have h := c1_attempt_budget_and_terminal_raise ⟨1, 2⟩ DEFAULT_RETRY_STATUSES
    (fun n => if n = 0 then .resp 500 none else .resp 400 none)
  exact ⟨h.1, h.2.1 1 (by decide) (by decide)⟩

/-- C2: when the first attempt's response is a 401, 403 or 404, `_request`
issues exactly one HTTP attempt, raises the corresponding classified error
(`AuthenticationError` for 401 and 403, `NotFoundError` for 404), and
performs no sleep. -/
theorem c2_terminal_statuses (cfg : ClientConfig) (rs : List Nat)
    (env : Nat → AttemptOutcome) (hdr : Option String) :
    (env 0 = .resp 401 hdr →
      request cfg rs env = ⟨.error (.authenticationError 401), 1, []⟩) ∧
    (env 0 = .resp 403 hdr →
      request cfg rs env = ⟨.error (.authenticationError 403), 1, []⟩) ∧
    (env 0 = .resp 404 hdr →
      request cfg rs env = ⟨.error .notFoundError, 1, []⟩) := by
  refine ⟨?_, ?_, ?_⟩ <;> intro h <;> simp [request, requestAux, h]

/-- Witness for C2 at a concrete configuration and environment. -/
theorem c2_terminal_statuses_witness :
    (fun _ : Nat => AttemptOutcome.resp 404 none) 0 = .resp 404 none ∧
    request ⟨3, 2⟩ DEFAULT_RETRY_STATUSES (fun _ => .resp 404 none) =
      ⟨.error .notFoundError, 1, []⟩ :=
  ⟨rfl, (c2_terminal_statuses ⟨3, 2⟩ DEFAULT_RETRY_STATUSES
    (fun _ => .resp 404 none) none).2.2 rfl⟩

/-- Classification of a retryable server-error status under the default
retry statuses: sleep-and-retry with budget, else the generic
`ProviderError` carrying the status. -/
theorem stepDecision_retryable_server (cfg : ClientConfig) (a s : Nat) (hdr : Option String)
    (hs : s = 500 ∨ s = 502 ∨ s = 503 ∨ s = 504) :
    stepDecision cfg DEFAULT_RETRY_STATUSES a (.resp s hdr) =
      if a < cfg.max_retries then .sleepRetry (calculate_backoff cfg a)
      else .raise (.providerError (some s)) := by
  rcases hs with rfl | rfl | rfl | rfl <;>
    by_cases hm : a < cfg.max_retries <;>
      simp [stepDecision, DEFAULT_RETRY_STATUSES, hm]

/-- A run whose attempts all return retryable server errors: the loop
consumes its whole budget, sleeping the exponential backoff after every
non-final attempt, and raises a `ProviderError` carrying the final
attempt's status. -/
theorem requestAux_all_retryable (cfg : ClientConfig) (env : Nat → AttemptOutcome)
    (st : Nat → Nat) (hd : Nat → Option String)
    (henv : ∀ a, env a = .resp (st a) (hd a))
    (hst : ∀ a, st a = 500 ∨ st a = 502 ∨ st a = 503 ∨ st a = 504) :
    ∀ r a exc, a + r = cfg.max_retries →
      requestAux cfg DEFAULT_RETRY_STATUSES env a (r + 1) exc =
        ⟨.error (.providerError (some (st (a + r)))), r + 1,
          (List.range r).map (fun i => calculate_backoff cfg (a + i))⟩ := by
  intro r
  induction r with
  | zero =>
    intro a exc ha
    rw [requestAux_succ, henv a, stepDecision_retryable_server cfg a (st a) (hd a) (hst a)]
    have hm : ¬ a < cfg.max_retries := by omega
    simp [hm]
  | succ r ih =>
    intro a exc ha
    rw [requestAux_succ, henv a, stepDecision_retryable_server cfg a (st a) (hd a) (hst a)]
    have hm : a < cfg.max_retries := by omega
    rw [if_pos hm]
    dsimp only [recordedExc]
    rw [ih (a + 1) exc (by omega)]
    have hfin : (a + 1) + r = a + (r + 1) := by omega
    have hmap : ∀ i : Nat, calculate_backoff cfg ((a + 1) + i) = calculate_backoff cfg (a + (i + 1)) := by
      intro i
      have : (a + 1) + i = a + (i + 1) := by omega
      rw [this]
    simp only [hfin, hmap, List.range_succ_eq_map, List.map_map, List.map_cons]
    simp [Function.comp_def]

/-- C3: when every attempt returns one of the retryable server statuses
500, 502, 503, 504 under the default retry set, `_request` with
`max_retries = N` makes exactly `N + 1` attempts (hence at most `N + 1`),
sleeps `backoff_factor ^ attempt` seconds after each attempt except the
last, and finally raises a `ProviderError` carrying the final attempt's
status code. -/
theorem c3_retryable_exhaustion (cfg : ClientConfig) (env : Nat → AttemptOutcome)
    (st : Nat → Nat) (hd : Nat → Option String)
    (henv : ∀ a, env a = .resp (st a) (hd a))
    (hst : ∀ a, st a = 500 ∨ st a = 502 ∨ st a = 503 ∨ st a = 504) :
    request cfg DEFAULT_RETRY_STATUSES env =
      ⟨.error (.providerError (some (st cfg.max_retries))), cfg.max_retries + 1,
        (List.range cfg.max_retries).map (calculate_backoff cfg)⟩ := by
  have h := requestAux_all_retryable cfg env st hd henv hst cfg.max_retries 0 none (by omega)
  simpa [request] using h

/-- Witness for C3: `max_retries = 2`, factor 2, all attempts 503. -/
theorem c3_retryable_exhaustion_witness :
    request ⟨2, 2⟩ DEFAULT_RETRY_STATUSES (fun _ => .resp 503 none) =
      ⟨.error (.providerError (some 503)), 2 + 1,
        (List.range 2).map (calculate_backoff ⟨2, 2⟩)⟩ ∧
    (List.range 2).map (calculate_backoff ⟨2, 2⟩) = [1, 2] :=
  ⟨c3_retryable_exhaustion ⟨2, 2⟩ (fun _ => .resp 503 none) (fun _ => 503) (fun _ => none)
      (fun _ => rfl) (fun _ => Or.inr (Or.inr (Or.inl rfl))),
    by decide⟩

/-- Rate-limit handling at any reached attempt, generalized over the loop
state: with budget remaining the computed delay is slept (it is the `j`-th
entry of the sleep list) and a further attempt follows; on the final
allowed attempt the call raises `RateLimitError` carrying the delay. -/
theorem requestAux_429 (cfg : ClientConfig) (rs : List Nat) (env : Nat → AttemptOutcome) :
    ∀ r a exc, a + r = cfg.max_retries + 1 →
      ∀ j hdr, j < (requestAux cfg rs env a r exc).attempts →
        env (a + j) = .resp 429 hdr →
        ((a + j < cfg.max_retries →
          (requestAux cfg rs env a r exc).sleeps.get? j =
            some ((get_retry_after cfg hdr (a + j) : ℚ)) ∧
          j + 1 < (requestAux cfg rs env a r exc).attempts) ∧
        (cfg.max_retries ≤ a + j →
          (requestAux cfg rs env a r exc).result =
            .error (.rateLimitError (get_retry_after cfg hdr (a + j))))) := by
  intro r
  induction r with
  | zero =>
    intro a exc _ j hdr hj _
    rw [(requestAux_zero cfg rs env a exc).1] at hj
    omega
  | succ r ih =>
    intro a exc hinv j hdr hj h429
    cases j with
    | zero =>
      simp only [Nat.add_zero] at h429 ⊢
      by_cases hm : a < cfg.max_retries
      · have hstep : stepDecision cfg rs a (env a) =
            .sleepRetry ((get_retry_after cfg hdr a : ℚ)) := by
          rw [h429]; simp [stepDecision, hm]
        rw [requestAux_succ, hstep]
        dsimp only
        refine ⟨fun _ => ⟨rfl, ?_⟩, fun hge => absurd hm (by omega)⟩
        obtain ⟨r', rfl⟩ : ∃ r', r = r' + 1 := ⟨r - 1, by omega⟩
        have := requestAux_attempts_pos cfg rs env r' (a + 1) (recordedExc (env a) exc)
        omega
      · have hstep : stepDecision cfg rs a (env a) =
            .raise (.rateLimitError (get_retry_after cfg hdr a)) := by
          rw [h429]; simp [stepDecision, hm]
        rw [requestAux_succ, hstep]
        dsimp only
        exact ⟨fun hlt => absurd hlt hm, fun _ => rfl⟩
    | succ j =>
      have hae : a + (j + 1) = (a + 1) + j := by omega
      rw [requestAux_succ] at hj ⊢
      cases hd : stepDecision cfg rs a (env a) with
      | success s => rw [hd] at hj; dsimp only at hj; omega
      | raise e => rw [hd] at hj; dsimp only at hj; omega
      | sleepRetry d =>
        rw [hd] at hj; dsimp only at hj ⊢
        rw [hae] at h429 ⊢
        have H := ih (a + 1) (recordedExc (env a) exc) (by omega) j hdr (by omega) h429
        refine ⟨fun hlt => ⟨?_, ?_⟩, fun hge => H.2 hge⟩
        · simpa using (H.1 hlt).1
        · have := (H.1 hlt).2
          omega
      | fallThrough e =>
        rw [hd] at hj; dsimp only at hj
        have hmax := stepDecision_fallThrough_le cfg rs a (env a) e hd
        have hr : r = 0 := by omega
        subst hr
        rw [(requestAux_zero cfg rs env (a + 1) (some e)).1] at hj
        omega

/-- C4: at any reached attempt whose response is a 429, the delay is the
`Retry-After` header value when it is present and parseable as an integer
and the exponential-backoff value otherwise; with budget remaining the
engine sleeps exactly that delay and issues a further attempt, and on the
final allowed attempt it raises `RateLimitError` carrying that delay as
`retry_after`. -/
theorem c4_rate_limit (cfg : ClientConfig) (rs : List Nat) (env : Nat → AttemptOutcome)
    (a : Nat) (hdr : Option String)
    (hreach : a < (request cfg rs env).attempts)
    (h429 : env a = .resp 429 hdr) :
    (∀ s n, hdr = some s → s ≠ "" → pyStrToInt? s = some n →
      get_retry_after cfg hdr a = n) ∧
    (hdr = none → get_retry_after cfg hdr a = pyIntTrunc (calculate_backoff cfg a)) ∧
    (∀ s, hdr = some s → pyStrToInt? s = none →
      get_retry_after cfg hdr a = pyIntTrunc (calculate_backoff cfg a)) ∧
    (a < cfg.max_retries →
      (request cfg rs env).sleeps.get? a = some ((get_retry_after cfg hdr a : ℚ)) ∧
      a + 1 < (request cfg rs env).attempts) ∧
    (cfg.max_retries ≤ a →
      (request cfg rs env).result = .error (.rateLimitError (get_retry_after cfg hdr a))) := by
  have H := requestAux_429 cfg rs env (cfg.max_retries + 1) 0 none (by omega) a hdr
    (by simpa [request] using hreach) (by simpa using h429)
  simp only [Nat.zero_add] at H
  refine ⟨?_, ?_, ?_, H.1, H.2⟩
  · intro s n hs hne hparse
    subst hs
    simp [get_retry_after, hne, hparse]
  · intro hs
    subst hs
    simp [get_retry_after]
  · intro s hs hparse
    subst hs
    by_cases hne : s = ""
    · simp [get_retry_after, hne]
    · simp [get_retry_after, hne, hparse]

/-- Witness for C4: a 429 with `Retry-After: 7` on the first attempt under
`max_retries = 1`, followed by a success. -/
theorem c4_rate_limit_witness :
    get_retry_after ⟨1, 2⟩ (some "7") 0 = 7 ∧
    (request ⟨1, 2⟩ DEFAULT_RETRY_STATUSES
        (fun n => if n = 0 then .resp 429 (some "7") else .resp 200 none)).sleeps.get? 0 =
      some ((get_retry_after ⟨1, 2⟩ (some "7") 0 : ℚ)) ∧
    0 + 1 < (request ⟨1, 2⟩ DEFAULT_RETRY_STATUSES
        (fun n => if n = 0 then .resp 429 (some "7") else .resp 200 none)).attempts := by
  have h := c4_rate_limit ⟨1, 2⟩ DEFAULT_RETRY_STATUSES
    (fun n => if n = 0 then .resp 429 (some "7") else .resp 200 none) 0 (some "7")
    (by decide) (by decide)
  exact ⟨h.1 "7" 7 rfl (by decide) (by decide), (h.2.2.2.1 (by decide)).1,
    (h.2.2.2.1 (by decide)).2⟩

/-- Starting anywhere inside the loop (with the call-site relation between
attempt index and remaining iterations), the final-fallback `ProviderError`
is never the result: the loop can only exit exhausted after a transport
exception recorded `last_exception`. -/
theorem requestAux_no_fallback (cfg : ClientConfig) (rs : List Nat) (env : Nat → AttemptOutcome) :
    ∀ r a exc, a + (r + 1) = cfg.max_retries + 1 →
      (requestAux cfg rs env a (r + 1) exc).result ≠ .error (.providerError none) := by
  intro r
  induction r with
  | zero =>
    intro a exc hinv
    rw [requestAux_succ]
    cases hd : stepDecision cfg rs a (env a) with
    | success s => simp
    | raise e =>
      dsimp only
      simpa using stepDecision_raise_ne_fallback cfg rs a (env a) e hd
    | sleepRetry d =>
      have := stepDecision_sleepRetry_lt cfg rs a (env a) d hd
      exact absurd this (by omega)
    | fallThrough e =>
      dsimp only
      cases e <;> simp [requestAux]
  | succ r ih =>
    intro a exc hinv
    rw [requestAux_succ]
    cases hd : stepDecision cfg rs a (env a) with
    | success s => simp
    | raise e =>
      dsimp only
      simpa using stepDecision_raise_ne_fallback cfg rs a (env a) e hd
    | sleepRetry d =>
      dsimp only
      exact ih (a + 1) (recordedExc (env a) exc) (by omega)
    | fallThrough e =>
      have := stepDecision_fallThrough_le cfg rs a (env a) e hd
      exact absurd this (by omega)

/-- A run whose reachable attempts are all transport exceptions exhausts
the budget and raises the connection error classifying `last_exception`,
i.e. the final attempt's exception kind. -/
theorem requestAux_all_transport (cfg : ClientConfig) (rs : List Nat)
    (env : Nat → AttemptOutcome)
    (htr : ∀ i, i ≤ cfg.max_retries → env i = .timeout ∨ env i = .connError) :
    ∀ r a exc, a + r = cfg.max_retries →
      (requestAux cfg rs env a (r + 1) exc).result =
        .error (.connectionError (if env cfg.max_retries = .timeout then true else false)) := by
  intro r
  induction r with
  | zero =>
    intro a exc ha
    have hm : ¬ a < cfg.max_retries := by omega
    rw [requestAux_succ]
    rcases htr a (by omega) with h | h
    · have hstep : stepDecision cfg rs a (env a) = .fallThrough .timeout := by
        rw [h]; simp [stepDecision, hm]
      rw [hstep]
      dsimp only
      have hfin : env cfg.max_retries = .timeout := by rw [← ha, Nat.add_zero]; exact h
      simp [requestAux, hfin]
    · have hstep : stepDecision cfg rs a (env a) = .fallThrough .connError := by
        rw [h]; simp [stepDecision, hm]
      rw [hstep]
      dsimp only
      have hfin : env cfg.max_retries = .connError := by rw [← ha, Nat.add_zero]; exact h
      simp [requestAux, hfin]
  | succ r ih =>
    intro a exc ha
    have hm : a < cfg.max_retries := by omega
    rw [requestAux_succ]
    rcases htr a (by omega) with h | h <;>
      · have hstep : stepDecision cfg rs a (env a) =
            .sleepRetry (calculate_backoff cfg a) := by
          rw [h]; simp [stepDecision, hm]
        rw [hstep]
        dsimp only
        exact ih (a + 1) (recordedExc (env a) exc) (by omega)

/-- C10: the final fallback branch raising
`ProviderError("Request failed after all retry attempts")` is unreachable
for every environment; and when the loop exhausts on transport failures
(every attempt a timeout or connection error) the call instead raises the
connection-class error describing the recorded `last_exception`: the
"timed out" form when the final attempt timed out, the "connection failed"
form otherwise. -/
theorem c10_fallback_unreachable (cfg : ClientConfig) (rs : List Nat)
    (env : Nat → AttemptOutcome) :
    (request cfg rs env).result ≠ .error (.providerError none) ∧
    ((∀ i, i ≤ cfg.max_retries → env i = .timeout ∨ env i = .connError) →
      (request cfg rs env).result =
        .error (.connectionError (if env cfg.max_retries = .timeout then true else false))) := by
  constructor
  · exact requestAux_no_fallback cfg rs env cfg.max_retries 0 none (by omega)
  · intro htr
    exact requestAux_all_transport cfg rs env htr cfg.max_retries 0 none (by omega)

/-- Witness for C10: every attempt times out under `max_retries = 1`. -/
theorem c10_fallback_unreachable_witness :
    (request ⟨1, 2⟩ DEFAULT_RETRY_STATUSES (fun _ => .timeout)).result ≠
      .error (.providerError none) ∧
    (request ⟨1, 2⟩ DEFAULT_RETRY_STATUSES (fun _ => .timeout)).result =
      .error (.connectionError
        (if (fun _ : Nat => AttemptOutcome.timeout) 1 = .timeout then true else false)) := by
  have h := c10_fallback_unreachable ⟨1, 2⟩ DEFAULT_RETRY_STATUSES (fun _ => .timeout)
  exact ⟨h.1, h.2 (fun i _ => Or.inl rfl)⟩

/-- C9: `test_connection` succeeds when the primary probe succeeds; when
the primary probe raises `NotFoundError` it succeeds if the secondary probe
succeeds or also raises `NotFoundError`; and an `AuthenticationError` (the
classification of a 401) from either probe propagates unchanged. -/
theorem c9_test_connection (cfg : ClientConfig) (rs : List Nat)
    (penv : String → Nat → AttemptOutcome) :
    (∀ s, http_get cfg rs penv SERVER_INFO_PATH = .ok s →
      test_connection cfg rs penv = .ok true) ∧
    (http_get cfg rs penv SERVER_INFO_PATH = .error .notFoundError →
      (∀ s, http_get cfg rs penv MYSELF_PATH = .ok s →
        test_connection cfg rs penv = .ok true) ∧
      (http_get cfg rs penv MYSELF_PATH = .error .notFoundError →
        test_connection cfg rs penv = .ok true) ∧
      (∀ st, http_get cfg rs penv MYSELF_PATH = .error (.authenticationError st) →
        test_connection cfg rs penv = .error (.authenticationError st))) ∧
    (∀ st, http_get cfg rs penv SERVER_INFO_PATH = .error (.authenticationError st) →
      test_connection cfg rs penv = .error (.authenticationError st)) := by
  refine ⟨?_, ?_, ?_⟩
  · intro s hs
    simp [test_connection, hs]
  · intro h1
    refine ⟨?_, ?_, ?_⟩
    · intro s hs
      simp [test_connection, h1, hs]
    · intro h2
      simp [test_connection, h1, h2]
    · intro st h2
      simp [test_connection, h1, h2]
  · intro st h1
    simp [test_connection, h1]

/-- Witness for C9: primary probe 404s, secondary succeeds. -/
theorem c9_test_connection_witness :
    test_connection ⟨3, 2⟩ DEFAULT_RETRY_STATUSES
      (fun p => if p = SERVER_INFO_PATH then (fun _ => .resp 404 none)
        else (fun _ => .resp 200 none)) = .ok true := by
  have h := c9_test_connection ⟨3, 2⟩ DEFAULT_RETRY_STATUSES
    (fun p => if p = SERVER_INFO_PATH then (fun _ => .resp 404 none)
      else (fun _ => .resp 200 none))
  exact (h.2.1 (by rfl)).1 200 (by rfl)

/-- Three chained fallbacks compute the spec-side per-field resolution. -/
theorem fallback_chain (b envB keyB dotB : Option String) :
    fallback (fallback (fallback b envB) keyB) dotB = resolveField b envB keyB dotB := by
  by_cases h1 : isTruthy b <;> by_cases h2 : isTruthy envB <;> by_cases h3 : isTruthy keyB <;>
    simp [fallback, resolveField, h1, h2, h3]

/-- The all-fields guard in front of the `.env` step collapses: a field that
is already truthy ignores its `.env` fallback anyway. -/
theorem guard_fallback (P : Bool) (u x : Option String) (h : P = true → isTruthy u = true) :
    (if P then u else fallback u x) = fallback u x := by
  by_cases hP : P
  · simp [hP, fallback, h hP]
  · simp [hP]

/-- `get_credentials` in closed form: each field is resolved independently
as explicit > environment > keyring > `.env`, the `missing` list names
exactly the fields that end up falsy, and the result is the aggregate error
or the normalized credentials. -/
theorem get_credentials_eq (E : ResolveEnv) (b e t : Option String) (svc : String) :
    get_credentials E b e t svc =
      (let u := resolveField b (E.osEnv ENV_BASE_URL)
        (get_from_keyring E svc KEYRING_BASE_URL) (load_dotenv E.dotenvFile ENV_BASE_URL)
      let m := resolveField e (E.osEnv ENV_USER_EMAIL)
        (get_from_keyring E svc KEYRING_EMAIL) (load_dotenv E.dotenvFile ENV_USER_EMAIL)
      let k := resolveField t (E.osEnv ENV_API_TOKEN)
        (get_from_keyring E svc KEYRING_TOKEN) (load_dotenv E.dotenvFile ENV_API_TOKEN)
      let missing :=
        (if isTruthy u then [] else ["base_url"]) ++
        (if isTruthy m then [] else ["email"]) ++
        (if isTruthy k then [] else ["api_token"])
      if missing.isEmpty then
        .ok ⟨pyRstripSlashes (u.getD ""), m.getD "", k.getD ""⟩
      else .error missing) := by
  unfold get_credentials
  dsimp only
  rw [apply_ite Prod.fst, apply_ite (fun p : Option String × Option String × Option String => p.2.1),
    apply_ite (fun p : Option String × Option String × Option String => p.2.2)]
  dsimp only
  rw [guard_fallback _ _ _ (fun hP => by
        rcases Bool.and_eq_true .. |>.mp (Bool.and_eq_true .. |>.mp hP).1 with ⟨h1, _⟩
        exact h1),
    guard_fallback _ _ _ (fun hP => by
        rcases Bool.and_eq_true .. |>.mp (Bool.and_eq_true .. |>.mp hP).1 with ⟨_, h2⟩
        exact h2),
    guard_fallback _ _ _ (fun hP => (Bool.and_eq_true .. |>.mp hP).2)]
  rw [fallback_chain, fallback_chain, fallback_chain]

/-- C5: each of the three fields is resolved independently as
explicit > environment > keyring > `.env` file, the first truthy
(non-empty) value winning per field; whenever each field's independent
resolution is truthy the call succeeds with exactly those three values
(with `base_url` normalized), regardless of which source supplied which
field. -/
theorem c5_field_precedence (E : ResolveEnv) (b e t : Option String) (svc : String)
    (hu : isTruthy (resolveField b (E.osEnv ENV_BASE_URL)
      (get_from_keyring E svc KEYRING_BASE_URL) (load_dotenv E.dotenvFile ENV_BASE_URL)) = true)
    (hm : isTruthy (resolveField e (E.osEnv ENV_USER_EMAIL)
      (get_from_keyring E svc KEYRING_EMAIL) (load_dotenv E.dotenvFile ENV_USER_EMAIL)) = true)
    (hk : isTruthy (resolveField t (E.osEnv ENV_API_TOKEN)
      (get_from_keyring E svc KEYRING_TOKEN) (load_dotenv E.dotenvFile ENV_API_TOKEN)) = true) :
    get_credentials E b e t svc = .ok
      ⟨pyRstripSlashes ((resolveField b (E.osEnv ENV_BASE_URL)
          (get_from_keyring E svc KEYRING_BASE_URL)
          (load_dotenv E.dotenvFile ENV_BASE_URL)).getD ""),
        (resolveField e (E.osEnv ENV_USER_EMAIL) (get_from_keyring E svc KEYRING_EMAIL)
          (load_dotenv E.dotenvFile ENV_USER_EMAIL)).getD "",
        (resolveField t (E.osEnv ENV_API_TOKEN) (get_from_keyring E svc KEYRING_TOKEN)
          (load_dotenv E.dotenvFile ENV_API_TOKEN)).getD ""⟩ := by
  rw [get_credentials_eq]
  simp only [hu, hm, hk]
  simp

/-- Witness for C5: explicit `base_url`, environment email, `.env` file
token resolve successfully combined. -/
theorem c5_field_precedence_witness :
    get_credentials
      ⟨fun k => if k = ENV_USER_EMAIL then some "me@example.com" else none,
        fun _ _ => .notFound, some ["JIRA_API_TOKEN=tok"]⟩
      (some "https://c.example.com") none none "svc" =
      .ok ⟨"https://c.example.com", "me@example.com", "tok"⟩ := by
  have h := c5_field_precedence
    ⟨fun k => if k = ENV_USER_EMAIL then some "me@example.com" else none,
      fun _ _ => .notFound, some ["JIRA_API_TOKEN=tok"]⟩
    (some "https://c.example.com") none none "svc" (by rfl) (by rfl) (by rfl)
  exact h.trans (by rfl)

/-- C6: the aggregate `ValueError` payload lists exactly the names of the
fields that remain falsy after all four sources (and no resolved field);
the call fails with that payload precisely when it is non-empty, and
returns credentials when every field resolved. -/
theorem c6_missing_fields (E : ResolveEnv) (b e t : Option String) (svc : String) :
    (let u := resolveField b (E.osEnv ENV_BASE_URL)
      (get_from_keyring E svc KEYRING_BASE_URL) (load_dotenv E.dotenvFile ENV_BASE_URL)
    let m := resolveField e (E.osEnv ENV_USER_EMAIL)
      (get_from_keyring E svc KEYRING_EMAIL) (load_dotenv E.dotenvFile ENV_USER_EMAIL)
    let k := resolveField t (E.osEnv ENV_API_TOKEN)
      (get_from_keyring E svc KEYRING_TOKEN) (load_dotenv E.dotenvFile ENV_API_TOKEN)
    let missing :=
      (if isTruthy u then [] else ["base_url"]) ++
      (if isTruthy m then [] else ["email"]) ++
      (if isTruthy k then [] else ["api_token"])
    ("base_url" ∈ missing ↔ isTruthy u = false) ∧
    ("email" ∈ missing ↔ isTruthy m = false) ∧
    ("api_token" ∈ missing ↔ isTruthy k = false) ∧
    (missing ≠ [] → get_credentials E b e t svc = .error missing) ∧
    (missing = [] → ∃ c, get_credentials E b e t svc = .ok c)) := by
  have hbu : ("base_url" : String) ≠ "email" := by decide
  have hba : ("base_url" : String) ≠ "api_token" := by decide
  have hea : ("email" : String) ≠ "api_token" := by decide
  dsimp only
  refine ⟨?_, ?_, ?_, ?_, ?_⟩
  · by_cases hu : isTruthy (resolveField b (E.osEnv ENV_BASE_URL)
        (get_from_keyring E svc KEYRING_BASE_URL) (load_dotenv E.dotenvFile ENV_BASE_URL)) <;>
      simp [hu, hbu, hba]
  · by_cases hm : isTruthy (resolveField e (E.osEnv ENV_USER_EMAIL)
        (get_from_keyring E svc KEYRING_EMAIL) (load_dotenv E.dotenvFile ENV_USER_EMAIL)) <;>
      simp [hm, hbu.symm, hea]
  · by_cases hk : isTruthy (resolveField t (E.osEnv ENV_API_TOKEN)
        (get_from_keyring E svc KEYRING_TOKEN) (load_dotenv E.dotenvFile ENV_API_TOKEN)) <;>
      simp [hk, hba.symm, hea.symm]
  · intro hne
    rw [get_credentials_eq]
    dsimp only
    rw [if_neg (by simpa [List.isEmpty_iff] using hne)]
  · intro hemp
    rw [get_credentials_eq]
    dsimp only
    rw [if_pos (by simpa [List.isEmpty_iff] using hemp)]
    exact ⟨_, rfl⟩

/-- Witness for C6: only `base_url` is supplied, so the error payload is
exactly `["email", "api_token"]`. -/
theorem c6_missing_fields_witness :
    get_credentials ⟨fun _ => none, fun _ _ => .notFound, none⟩ (some "x") none none "svc" =
      .error ((if isTruthy (resolveField (some "x") none none none) then [] else ["base_url"]) ++
        (if isTruthy (resolveField none none none none) then [] else ["email"]) ++
        (if isTruthy (resolveField none none none none) then [] else ["api_token"])) := by
  have h := (c6_missing_fields ⟨fun _ => none, fun _ _ => .notFound, none⟩
    (some "x") none none "svc").2.2.2.1 (by decide)
  exact h

/-- C7 counterexample: saving `("https://x/", "", "t")` and resolving with
no explicit arguments and no environment variables does not return the
saved triple — the empty email makes resolution fail (and a trailing slash
would be stripped even on success). -/
theorem c7_round_trip_counterexample :
    get_credentials
        ⟨fun _ => none, save_credentials (fun _ _ => .notFound) "https://x/" "" "t" "svc", none⟩
        none none none "svc" ≠
      .ok ⟨"https://x/", "", "t"⟩ ∧
    get_credentials
        ⟨fun _ => none, save_credentials (fun _ _ => .notFound) "https://x/" "" "t" "svc", none⟩
        none none none "svc" =
      .error ["email"] := by
  have h2 : get_credentials
      ⟨fun _ => none, save_credentials (fun _ _ => .notFound) "https://x/" "" "t" "svc", none⟩
      none none none "svc" = .error ["email"] := by rfl
  refine ⟨?_, h2⟩
  rw [h2]
  intro hc
  exact Except.noConfusion hc

/-- C7 amended: for every triple whose three fields are non-empty, saving it
and then resolving with no explicit arguments, no environment variables and
the same keyring service returns the email and token unchanged and the
`base_url` with its trailing slashes stripped (hence exactly the saved
triple whenever the saved `base_url` has no trailing slash). -/
theorem c7_round_trip_amended (st : String → String → KeyringResult)
    (b e t svc : String) (hb : b ≠ "") (he : e ≠ "") (ht : t ≠ "") :
    get_credentials ⟨fun _ => none, save_credentials st b e t svc, none⟩ none none none svc =
      .ok ⟨pyRstripSlashes b, e, t⟩ := by
  have hba : (KEYRING_BASE_URL : String) ≠ KEYRING_TOKEN := by decide
  have hbe : (KEYRING_BASE_URL : String) ≠ KEYRING_EMAIL := by decide
  have het : (KEYRING_EMAIL : String) ≠ KEYRING_TOKEN := by decide
  have hkb : get_from_keyring
      ⟨fun _ => none, save_credentials st b e t svc, none⟩ svc KEYRING_BASE_URL = some b := by
    simp [get_from_keyring, save_credentials, keyring_set, hba, hbe]
  have hke : get_from_keyring
      ⟨fun _ => none, save_credentials st b e t svc, none⟩ svc KEYRING_EMAIL = some e := by
    simp [get_from_keyring, save_credentials, keyring_set, het]
  have hkt : get_from_keyring
      ⟨fun _ => none, save_credentials st b e t svc, none⟩ svc KEYRING_TOKEN = some t := by
    simp [get_from_keyring, save_credentials, keyring_set]
  rw [get_credentials_eq]
  simp [resolveField, hkb, hke, hkt, isTruthy, hb, he, ht, load_dotenv]

/-- Witness for the amended C7 at a concrete triple. -/
theorem c7_round_trip_amended_witness :
    get_credentials
        ⟨fun _ => none, save_credentials (fun _ _ => .notFound) "https://y" "u" "p" "svc", none⟩
        none none none "svc" =
      .ok ⟨pyRstripSlashes "https://y", "u", "p"⟩ :=
  c7_round_trip_amended (fun _ _ => .notFound) "https://y" "u" "p" "svc"
    (by decide) (by decide) (by decide)

/-- Unfolding lemma: the keys of a consed dict. -/
theorem dictKeys_cons (p : String × Nat) (ps : List (String × Nat)) :
    dictKeys (p :: ps) = p.1 :: dictKeys ps := rfl

/-- Looking up the inserted key after an in-place overwrite finds the new
value. -/
theorem dictGet_map_overwrite (d : List (String × Nat)) (k : String) (v : Nat)
    (h : k ∈ dictKeys d) :
    dictGet? (d.map (fun p => if p.1 = k then (k, v) else p)) k = some v := by
  induction d with
  | nil => simp [dictKeys] at h
  | cons p ps ih =>
    by_cases hp : p.1 = k
    · simp [dictGet?, hp]
    · have h' : k ∈ dictKeys ps := by
        rcases (by simpa [dictKeys] using h : k = p.1 ∨ k ∈ dictKeys ps) with h0 | h0
        · exact absurd h0.symm hp
        · exact h0
      simpa [dictGet?, hp] using ih h'

/-- Looking up a fresh key after appending finds the appended value. -/
theorem dictGet_append_new (d : List (String × Nat)) (k : String) (v : Nat)
    (h : k ∉ dictKeys d) :
    dictGet? (d ++ [(k, v)]) k = some v := by
  induction d with
  | nil => simp [dictGet?]
  | cons p ps ih =>
    have hp : p.1 ≠ k := by
      intro hc
      exact h (by rw [dictKeys_cons, hc]; exact List.mem_cons_self k (dictKeys ps))
    have h' : k ∉ dictKeys ps := by
      intro hc
      exact h (by rw [dictKeys_cons]; exact List.mem_cons_of_mem _ hc)
    simpa [dictGet?, hp] using ih h'

/-- Python dict semantics: after `d[k] = v`, looking up `k` yields `v`. -/
theorem dictGet_insert (d : List (String × Nat)) (k : String) (v : Nat) :
    dictGet? (dictInsert d k v) k = some v := by
  unfold dictInsert
  by_cases h : k ∈ dictKeys d
  · rw [if_pos h]
    exact dictGet_map_overwrite d k v h
  · rw [if_neg h]
    exact dictGet_append_new d k v h

/-- Registering for an interface only rewrites that interface's dict. -/
theorem registryOf_register (r : Registries) (name : String) (i : Interface) (cls : Nat) :
    registryOf (register_adapter r name i cls) i = dictInsert (registryOf r i) name cls := by
  cases i <;> rfl

/-- C8: after registering a class for a name under an interface, `get` for
that interface and name returns an instance of the registered class built
with `config or {}`; `get` with a name that is not registered for the
interface raises the error listing the currently registered names for that
interface. -/
theorem c8_registry_lookup (r : Registries) (name : String) (i : Interface) (cls : Nat)
    (cfg : Option (List (String × String))) :
    get_adapter (register_adapter r name i cls) i name cfg = .ok ⟨cls, cfg.getD []⟩ ∧
    (∀ p, dictGet? (registryOf r i) p = none →
      get_adapter r i p cfg = .error (p, dictKeys (registryOf r i))) := by
  constructor
  · unfold get_adapter
    rw [registryOf_register, dictGet_insert]
  · intro p hp
    unfold get_adapter
    rw [hp]

/-- Witness for C8: register `"jira"` in an empty registry, fetch it, and
fetch an unknown name. -/
theorem c8_registry_lookup_witness :
    get_adapter (register_adapter ⟨[], [], []⟩ "jira" .issueTracker 5) .issueTracker "jira"
        (some [("k", "v")]) = .ok ⟨5, [("k", "v")]⟩ ∧
    get_adapter ⟨[], [], []⟩ .issueTracker "nope" (some [("k", "v")]) = .error ("nope", []) := by
  have h := c8_registry_lookup ⟨[], [], []⟩ "jira" .issueTracker 5 (some [("k", "v")])
  exact ⟨h.1, h.2 "nope" rfl⟩

end ItsmTools
